import Mathlib

/-!
# nodeenrollment: the split listener and the nil check of `common.go`

A shallow embedding of `util/splitlistener/splitlistener.go` and of `IsNil` /
`KeyIdFromPkix` from `common.go`.

* Values of the Go program become Lean data: errors carry the two observations
  the code makes of them (`errors.Is(err, net.ErrClosed)` and the optional
  `Temporary()` method), connections carry what `ConnectionState()` and
  `Handshake()` report.
* The unbuffered channels of the two baby listeners are modelled with their
  rendezvous semantics: a send stays outstanding until a receiver takes it.
* `Stop`, one iteration of the loop of `Start`, and `Accept` are functions on
  the listener state; `step` puts them together as the actions of the
  goroutines involved (engine, consumers, callers of `Stop`).
* Code that lives outside the repository (the ALPN registry, the result of
  closing the base listener, what `crypto/tls` does on a nil receiver, the
  HKDF/diceware generator) is a parameter.
-/

namespace Nodeenrollment

/-! ## common.go -/

/-- The kinds `reflect.Value.Kind` can report (the ones that can occur here). -/
inductive Kind
  | Ptr
  | Slice
  | Map
  | Func
  | Struct
  | String
  | Int
  deriving DecidableEq, Repr

/-- A value of Go type `any`: either the nil interface, or a dynamic value of
some kind; `nilValue` tells whether that dynamic value is the nil of its kind
(a nil pointer, a nil slice, ...). -/
inductive GoAny
  | nilInterface
  | dyn (kind : Kind) (nilValue : Bool)
  deriving DecidableEq, Repr

/-- Conversion of a `[]byte` argument to `any`: `none` is the nil slice. The
interface value is never nil, its dynamic type is `[]byte`. -/
def anyOfBytes (b : Option (List Nat)) : GoAny :=
  .dyn .Slice b.isNone

/-- `IsNil` of common.go, lines 15-23. -/
def IsNil (x : GoAny) : Bool :=
  match x with
  | .nilInterface => true                       -- in == nil
  | .dyn kind nilValue =>
    if kind ≠ .Ptr then false                   -- reflect.ValueOf(in).Kind() != reflect.Ptr
    else nilValue                               -- reflect.ValueOf(in).IsNil()

/-- Result of `KeyIdFromPkix`: the key id and the error (`none` is nil). -/
structure KeyIdResult where
  keyId : String
  err : Option String
  deriving DecidableEq, Repr

/-- `KeyIdFromPkix` of common.go, lines 47-63. `generate` stands for the
HKDF reader seeded with the key and the diceware generator drawing
`KeyIdNumWords` words from it (both outside the repository); a nil slice reads
as the empty byte string there. -/
def KeyIdFromPkix (generate : List Nat → Except String (List String))
    (pkixKey : Option (List Nat)) : KeyIdResult :=
  if IsNil (anyOfBytes pkixKey) then
    ⟨"", some "(nodeenrollment.KeyIdFromPkix) pkix key is nil"⟩
  else
    match generate (pkixKey.getD []) with
    | .error e => ⟨"", some ("(nodeenrollment.KeyIdFromPkix) error generating key id: " ++ e)⟩
    | .ok words => ⟨String.intercalate "-" words, none⟩

/-! ## splitlistener.go: values -/

/-- A Go `error` value, with what the code observes of it. -/
structure Err where
  /-- the text of `Error()` -/
  msg : String
  /-- the value of `errors.Is(err, net.ErrClosed)` -/
  isClosed : Bool
  /-- `some b` when the error has a method `Temporary() bool` returning `b` -/
  temporary : Option Bool
  deriving DecidableEq, Repr

/-- The sentinel `net.ErrClosed`. -/
def net.ErrClosed : Err :=
  ⟨"use of closed network connection", true, some false⟩

/-- The function `errors.New`. -/
def errors.New (msg : String) : Err :=
  ⟨msg, false, none⟩

/-- The call `fmt.Errorf("tls handshake resulted in error: %w", err)`: the
result wraps `err`. -/
def handshakeErrorf (err : Err) : Err :=
  ⟨"tls handshake resulted in error: " ++ err.msg, err.isClosed, none⟩

/-- Modelled from the spec: `temperror.New` (package util/temperror of this
repository is not among the sources). The spec calls the errors built with it
transient: the wrapped error reports `Temporary() = true`. -/
def temperror.New (err : Err) : Err :=
  { err with temporary := some true }

/-- A `*tls.Conn` with what the loop reads from it. -/
structure TlsConn where
  id : Nat
  /-- `ConnectionState().HandshakeComplete` at the time it is accepted -/
  handshakeComplete : Bool
  /-- what `Handshake()` returns if it is called (`none` is nil) -/
  handshakeResult : Option Err
  /-- `ConnectionState().NegotiatedProtocol` once the handshake is complete -/
  negotiatedProtocol : String
  deriving DecidableEq, Repr

/-- A `net.Conn`: a TLS session, or any other connection type. -/
inductive Conn
  | tls (c : TlsConn)
  | plain (id : Nat)
  deriving DecidableEq, Repr

/-- The type assertion `conn.(*tls.Conn)`; `none` is the nil pointer that comes
with `ok = false`. -/
def Conn.asTls : Conn → Option TlsConn
  | .tls c => some c
  | .plain _ => none

/-- What `baseLn.Accept()` returns: a connection, or a non-nil error. -/
inductive AcceptResult
  | conn (c : Conn)
  | err (e : Err)
  deriving DecidableEq, Repr

/-- The struct `splitConn`, lines 15-18 (`none` is nil). -/
structure splitConn where
  conn : Option Conn
  err : Option Err
  deriving DecidableEq, Repr

/-- An unbuffered `chan splitConn`. A send blocks until a receiver takes the
value: `sending` holds the value of the sender that is blocked on the channel.
`closes` counts the completed `close` operations. -/
structure Chan where
  sending : Option splitConn
  closes : Nat
  deriving DecidableEq, Repr

/-- The struct `babySplitListener` (the back pointer `tl` only serves `Addr`). -/
structure babySplitListener where
  incoming : Chan
  deriving DecidableEq, Repr

/-- The base `net.Listener`, seen through the calls made on it. -/
structure BaseListener where
  acceptCalls : Nat
  closeCalls : Nat
  deriving DecidableEq, Repr

/-- Where the goroutine that runs `Start` is. -/
inductive Engine
  | idle                    -- Start has not been called
  | running                 -- inside the for loop
  | returned (err : Err)    -- Start has returned err
  | panicked                -- Start ended in a run-time panic
  deriving DecidableEq, Repr

/-- The struct `SplitListener` (lines 34-38) together with the state of its
surroundings: which connections had `Close` called on them, and where the
engine goroutine is. -/
structure SplitListener where
  baseLn : BaseListener
  nodeeBabyListener : babySplitListener
  otherBabyListener : babySplitListener
  stopped : Bool
  /-- the connections on which `Close()` was called, oldest first -/
  connCloses : List Conn
  engine : Engine
  deriving DecidableEq, Repr

/-- How a call on a nil `*tls.Conn` receiver ends. -/
inductive NilCall
  | returns
  | panics
  deriving DecidableEq, Repr

/-- Everything the package takes from outside the repository sources. -/
structure World where
  /-- `nodeenrollment.ContainsKnownAlpnProto` -/
  ContainsKnownAlpnProto : String → Bool
  /-- `nodeenrollment.AuthenticateNodeNextProtoV1Prefix` -/
  AuthenticateNodeNextProtoV1Prefix : String
  /-- what `baseLn.Close()` returns, given the number of earlier calls -/
  baseLnClose : Nat → Option Err
  /-- how `Close` on a nil `*tls.Conn` ends; in crypto/tls the method reads a
  field of its receiver first, so there it is `panics` -/
  nilTlsConnClose : NilCall

/-- The function `strings.HasPrefix`. -/
def strings.HasPrefix (s pre : String) : Bool :=
  pre.data.isPrefixOf s.data

/-! ## splitlistener.go: operations -/

/-- `New`, lines 43-57: flag false, two fresh unbuffered channels. -/
def New : SplitListener :=
  { baseLn := ⟨0, 0⟩
    nodeeBabyListener := ⟨⟨none, 0⟩⟩
    otherBabyListener := ⟨⟨none, 0⟩⟩
    stopped := false
    connCloses := []
    engine := .idle }

/-- `Stop`, lines 62-67. -/
def Stop (w : World) (l : SplitListener) : Option Err × SplitListener :=
  if l.stopped = false then
    -- l.stopped.CAS(false, true) succeeded
    (w.baseLnClose l.baseLn.closeCalls,
      { l with stopped := true,
               baseLn := { l.baseLn with closeCalls := l.baseLn.closeCalls + 1 } })
  else
    (none, l)

/-- A sequence of `n` calls of `Stop`: the results in call order, and the
final state. -/
def stopN (w : World) : Nat → SplitListener → List (Option Err) × SplitListener
  | 0, l => ([], l)
  | n + 1, l =>
    let r := Stop w l
    let rest := stopN w n r.2
    (r.1 :: rest.1, rest.2)

/-- How one pass through the body of the for loop ends. -/
inductive Flow
  | next                -- continue, or the end of the body
  | ret (err : Err)     -- return err
  | panic               -- run-time panic
  deriving DecidableEq, Repr

/-- The statement `l.nodeeBabyListener.incoming <- v`. -/
def SplitListener.sendNodee (l : SplitListener) (v : splitConn) : SplitListener :=
  { l with nodeeBabyListener := ⟨{ l.nodeeBabyListener.incoming with sending := some v }⟩ }

/-- The statement `l.otherBabyListener.incoming <- v`. -/
def SplitListener.sendOther (l : SplitListener) (v : splitConn) : SplitListener :=
  { l with otherBabyListener := ⟨{ l.otherBabyListener.incoming with sending := some v }⟩ }

/-- A call of `Close()` on a live connection. -/
def SplitListener.closeConn (l : SplitListener) (c : Conn) : SplitListener :=
  { l with connCloses := l.connCloses ++ [c] }

/-- Lines 112-128 of `Start`: the switch on the negotiated protocol. `conn` is
the accepted connection and `tlsConn` the same connection after the type
assertion. -/
def dispatch (w : World) (l : SplitListener) (conn : Conn) (tlsConn : TlsConn) :
    SplitListener × Flow :=
  let negProto := tlsConn.negotiatedProtocol
  match w.ContainsKnownAlpnProto negProto with
  | true =>
    if strings.HasPrefix negProto w.AuthenticateNodeNextProtoV1Prefix then
      (l.sendNodee { conn := some (.tls tlsConn), err := none }, .next)
    else
      (l.closeConn conn, .next)
  | false =>
    (l.sendOther { conn := some (.tls tlsConn), err := none }, .next)

/-- One pass through the body of the for loop of `Start`, lines 79-128. `acc`
is what `baseLn.Accept()` returns if this pass calls it. -/
def iteration (w : World) (l : SplitListener) (acc : AcceptResult) : SplitListener × Flow :=
  if l.stopped then
    (l, .ret net.ErrClosed)
  else
    let l := { l with baseLn := { l.baseLn with acceptCalls := l.baseLn.acceptCalls + 1 } }
    match acc with
    | .err err =>
      if err.isClosed then (l, .ret err)
      else if err.temporary = some true then (l, .next)
      else (l, .ret err)
    | .conn conn =>
      match conn.asTls with
      | none =>
        -- line 98: `_ = tlsConn.Close()` with tlsConn the nil pointer
        match w.nilTlsConnClose with
        | .panics => (l, .panic)
        | .returns =>
          (l.sendOther { conn := none
                         err := some (temperror.New (errors.New "expected tls connection but it is not")) },
            .next)
      | some tlsConn =>
        if !tlsConn.handshakeComplete then
          match tlsConn.handshakeResult with
          | some err =>
            ((l.closeConn (.tls tlsConn)).sendOther
                { conn := none, err := some (temperror.New (handshakeErrorf err)) },
              .next)
          | none => dispatch w l conn tlsConn
        else dispatch w l conn tlsConn

/-- The builtin `close(ch)`; `none` is the panic on an already closed channel,
which leaves the channel as it is. -/
def Chan.close (ch : Chan) : Option Chan :=
  if ch.closes = 0 then some { ch with closes := ch.closes + 1 } else none

/-- The deferred function of `Start`, lines 74-77: the state afterwards, and
whether it ran to its end (`false` when one of the two `close` calls panics,
which skips the rest). -/
def closeIncoming (l : SplitListener) : SplitListener × Bool :=
  match l.nodeeBabyListener.incoming.close with
  | none => (l, false)
  | some n =>
    let l1 := { l with nodeeBabyListener := ⟨n⟩ }
    match l1.otherBabyListener.incoming.close with
    | none => (l1, false)
    | some o => ({ l1 with otherBabyListener := ⟨o⟩ }, true)

/-- The end of a pass: go on looping, or leave `Start` through the deferred
function, which also runs when the pass panicked. -/
def finish (r : SplitListener × Flow) : SplitListener :=
  match r.2 with
  | .next => r.1
  | .ret err =>
    match closeIncoming r.1 with
    | (l, true) => { l with engine := .returned err }
    | (l, false) => { l with engine := .panicked }
  | .panic => { (closeIncoming r.1).1 with engine := .panicked }

/-- A receive on the channel as the `range` clause does it. `none`: the
receiver blocks. `some (none, _)`: the channel is closed, the range ends.
`some (some v, _)`: the value of the blocked sender is taken. -/
def Chan.recv (ch : Chan) : Option (Option splitConn × Chan) :=
  if ch.closes ≠ 0 then some (none, ch)
  else
    match ch.sending with
    | some v => some (some v, { ch with sending := none })
    | none => none

/-- `babySplitListener.Accept`, lines 165-170. `none`: the call blocks.
Otherwise the returned pair `(net.Conn, error)` and the listener afterwards. -/
def Accept (b : babySplitListener) : Option ((Option Conn × Option Err) × babySplitListener) :=
  match b.incoming.recv with
  | none => none
  | some (some v, ch) => some ((v.conn, v.err), ⟨ch⟩)
  | some (none, ch) => some ((none, some net.ErrClosed), ⟨ch⟩)

/-- A sequence of `n` calls of `Accept` on one sink, each of which returns:
the results in call order. `none` when one of the calls blocks. -/
def acceptN : Nat → babySplitListener → Option (List (Option Conn × Option Err))
  | 0, _ => some []
  | n + 1, b =>
    match Accept b with
    | none => none
    | some (r, b1) =>
      match acceptN n b1 with
      | none => none
      | some rs => some (r :: rs)

/-- `babySplitListener.Close`, lines 156-158: returns nil, touches nothing. -/
def babySplitListener.Close (b : babySplitListener) : Option Err × babySplitListener :=
  (none, b)

/-! ## The goroutines together -/

/-- What the goroutines around one `SplitListener` can do next. -/
inductive Action
  | start                          -- a goroutine enters Start
  | stop                           -- a call of Stop
  | iterate (acc : AcceptResult)   -- the engine makes one pass through the loop
  | acceptNodee                    -- a call of Accept on the node sink returns
  | acceptOther                    -- a call of Accept on the other sink returns
  | closeSink                      -- a call of Close on either sink
  deriving DecidableEq, Repr

/-- The engine is not blocked in a channel send. -/
def SplitListener.noSend (l : SplitListener) : Bool :=
  l.nodeeBabyListener.incoming.sending.isNone && l.otherBabyListener.incoming.sending.isNone

/-- One action; `none` when the action cannot happen in this state (the call
blocks, or the engine is not at that point). Only one goroutine ever runs
`Start`. -/
def step (w : World) (l : SplitListener) : Action → Option SplitListener
  | .start => if l.engine = .idle then some { l with engine := .running } else none
  | .stop => some (Stop w l).2
  | .iterate acc =>
    if l.engine = .running ∧ l.noSend = true then some (finish (iteration w l acc)) else none
  | .acceptNodee =>
    match Accept l.nodeeBabyListener with
    | none => none
    | some (_, b) => some { l with nodeeBabyListener := b }
  | .acceptOther =>
    match Accept l.otherBabyListener with
    | none => none
    | some (_, b) => some { l with otherBabyListener := b }
  | .closeSink => some l

/-- A sequence of actions from a state; `none` when one of them cannot happen. -/
def exec (w : World) : SplitListener → List Action → Option SplitListener
  | l, [] => some l
  | l, a :: rest =>
    match step w l a with
    | none => none
    | some l1 => exec w l1 rest

/-- An envelope as the data model has it: exactly one of the two fields set. -/
def splitConn.oneSet (v : splitConn) : Bool :=
  (v.conn.isSome && v.err.isNone) || (v.conn.isNone && v.err.isSome)

/-! ## A run of `Start` whose consumers drain both sinks -/

/-- The consumer of a sink takes the value the engine is sending, if any, by a
call of `Accept`: the sink afterwards and what the call returned. On a closed
channel `Accept` yields no envelope, only the closed error, and nothing is
recorded. -/
def drain (b : babySplitListener) : babySplitListener × List (Option Conn × Option Err) :=
  if b.incoming.closes = 0 then
    match Accept b with
    | some (r, b1) => (b1, [r])
    | none => (b, [])
  else (b, [])

/-- The outcome of a run: the final state and what the calls of `Accept` on
each sink returned while the loop ran, in order. -/
structure Run where
  state : SplitListener
  nodee : List (Option Conn × Option Err)
  other : List (Option Conn × Option Err)
  deriving DecidableEq, Repr

/-- The loop of `Start` over the successive results of `baseLn.Accept()`, with
a consumer on each sink that receives every value as soon as it is sent. The
run ends when the loop is left or when no further result is available. -/
def runLoop (w : World) : SplitListener → List AcceptResult → Run
  | l, [] => ⟨l, [], []⟩
  | l, acc :: rest =>
    match step w l (.iterate acc) with
    | none => ⟨l, [], []⟩
    | some l1 =>
      let n := drain l1.nodeeBabyListener
      let o := drain l1.otherBabyListener
      let r := runLoop w { l1 with nodeeBabyListener := n.1, otherBabyListener := o.1 } rest
      ⟨r.state, n.2 ++ r.nodee, o.2 ++ r.other⟩

/-- `Start` on a fresh listener, lines 73-130. -/
def Start (w : World) (script : List AcceptResult) : Run :=
  runLoop w { New with engine := .running } script

/-- The sinks of the spec. -/
inductive Sink
  | node
  | other
  deriving DecidableEq, Repr

/-- Classification as the spec words it (section 4.2, steps 3 to 5): the sink
an accepted connection goes to and what `Accept` on that sink yields for it;
`none` for the handshake-only protocol, which is dropped. -/
def classify (w : World) (c : Conn) : Option (Sink × (Option Conn × Option Err)) :=
  match c with
  | .plain _ =>
    some (.other, (none, some (temperror.New (errors.New "expected tls connection but it is not"))))
  | .tls t =>
    match (if t.handshakeComplete then none else t.handshakeResult) with
    | some err => some (.other, (none, some (temperror.New (handshakeErrorf err))))
    | none =>
      if w.ContainsKnownAlpnProto t.negotiatedProtocol = false then
        some (.other, (some c, none))
      else if strings.HasPrefix t.negotiatedProtocol w.AuthenticateNodeNextProtoV1Prefix then
        some (.node, (some c, none))
      else none

/-- The part of an accepted sequence that classifies to a sink, in order. -/
def expected (w : World) (k : Sink) (cs : List Conn) : List (Option Conn × Option Err) :=
  cs.filterMap fun c =>
    match classify w c with
    | some (k1, r) => if k1 = k then some r else none
    | none => none

/-! ## Concrete surroundings used in examples -/

/-- A registry in the shape of the one of the enrollment library: two reserved
protocol families, one of them the authenticate family. -/
def sampleWorld (nilClose : NilCall) : World :=
  { ContainsKnownAlpnProto := fun p =>
      strings.HasPrefix p "v1-nodee-authenticate-node-" || strings.HasPrefix p "v1-nodee-fetch-node-creds-"
    AuthenticateNodeNextProtoV1Prefix := "v1-nodee-authenticate-node-"
    baseLnClose := fun _ => none
    nilTlsConnClose := nilClose }

/-- A client that negotiated the authenticate protocol. -/
def authConn : TlsConn := ⟨1, true, none, "v1-nodee-authenticate-node-abc"⟩

/-- A client that negotiated the fetch protocol. -/
def fetchConn : TlsConn := ⟨2, true, none, "v1-nodee-fetch-node-creds-abc"⟩

/-- A client that negotiated an unrelated protocol. -/
def h2Conn : TlsConn := ⟨3, false, none, "h2"⟩

/-- A temporary accept error. -/
def tempErr : Err := ⟨"too many open files", false, some true⟩

/-- A fatal accept error. -/
def fatalErr : Err := ⟨"bad file descriptor", false, none⟩

/-- A world whose base listener fails to close the first time. -/
def failingCloseWorld : World :=
  { sampleWorld .panics with
    baseLnClose := fun k => if k = 0 then some ⟨"bad file descriptor", false, none⟩ else none }

/-- A client whose handshake fails. -/
def badConn : TlsConn := ⟨4, false, some fatalErr, ""⟩

/-- The state after one delivery on the other sink and a fatal accept error. -/
def exitedState : SplitListener :=
  ⟨⟨2, 0⟩, ⟨⟨none, 1⟩⟩, ⟨⟨none, 1⟩⟩, false, [], .returned fatalErr⟩

/-- The state after `Start` is entered, `Stop` is called and the next pass of
the loop observes the flag. -/
def stoppedState : SplitListener :=
  ⟨⟨0, 1⟩, ⟨⟨none, 1⟩⟩, ⟨⟨none, 1⟩⟩, true, [], .returned net.ErrClosed⟩

/-- The state after the pass that accepts `badConn`. -/
def failedHandshakeState : SplitListener :=
  ⟨⟨1, 0⟩, ⟨⟨none, 0⟩⟩,
    ⟨⟨some ⟨none, some (temperror.New (handshakeErrorf fatalErr))⟩, 0⟩⟩, false,
    [.tls badConn], .running⟩

/-! ## The invariant -/

/-- The facts about a state that hold throughout the life of one listener:
before `Start` nothing is being sent; while `Start` has not returned from its
loop both channels are open; once it has returned both have been closed once
and nothing is being sent; values being sent are well formed. -/
def Consistent (l : SplitListener) : Prop :=
  (l.engine = .idle → l.noSend = true)
  ∧ ((l.engine = .idle ∨ l.engine = .running) →
      l.nodeeBabyListener.incoming.closes = 0 ∧ l.otherBabyListener.incoming.closes = 0)
  ∧ (∀ e, l.engine = .returned e →
      l.nodeeBabyListener.incoming.closes = 1 ∧ l.otherBabyListener.incoming.closes = 1
      ∧ l.noSend = true)
  ∧ (∀ v, l.nodeeBabyListener.incoming.sending = some v → v.conn.isSome = true ∧ v.err = none)
  ∧ (∀ v, l.otherBabyListener.incoming.sending = some v → v.oneSet = true)

/-! # Theorems -/

/-! ## common.go: the nil check -/

/-- `IsNil` reports false for every `[]byte` argument, nil or not: the kind of
the dynamic value is `Slice`, not `Ptr`. -/
theorem IsNil_bytes (b : Option (List Nat)) : IsNil (anyOfBytes b) = false := by
  simp [IsNil, anyOfBytes]

/-- C10 (fails on the code): for a nil byte slice `IsNil` reports false, so
`KeyIdFromPkix` does not return the "pkix key is nil" error; it runs the key-id
derivation on the empty key and returns what that yields. -/
theorem KeyIdFromPkix_nil_slice_derives (generate : List Nat → Except String (List String)) :
    IsNil (anyOfBytes none) = false
    ∧ KeyIdFromPkix generate none =
        (match generate [] with
          | .error e => ⟨"", some ("(nodeenrollment.KeyIdFromPkix) error generating key id: " ++ e)⟩
          | .ok words => ⟨String.intercalate "-" words, none⟩)
    ∧ KeyIdFromPkix (fun _ => .ok ["correct", "horse"]) none = ⟨"correct-horse", none⟩ := by
  refine ⟨by simp [IsNil, anyOfBytes], ?_, ?_⟩
  · simp [KeyIdFromPkix, IsNil_bytes]
  · decide

/-! ## Stop -/

/-- Once the flag is set, `Stop` returns nil and leaves the state as it is. -/
theorem Stop_stopped (w : World) (l : SplitListener) (h : l.stopped = true) :
    Stop w l = (none, l) := by
  simp [Stop, h]

/-- Any number of calls of `Stop` on a stopped listener: all nil, no change. -/
theorem stopN_stopped (w : World) (n : Nat) (l : SplitListener) (h : l.stopped = true) :
    stopN w n l = (List.replicate n none, l) := by
  induction n with
  | zero => rfl
  | succ k ih => simp [stopN, Stop_stopped w l h, ih, List.replicate_succ]

/-- C1: on a listener whose flag is not yet set, a sequence of `n ≥ 1` calls of
`Stop` invokes `Close` of the base listener exactly once, in the first call;
the first call returns the result of that `Close`, every later call returns
nil, and the state after `n` calls is the state after one call (which no
further call changes). -/
theorem Stop_idempotent (w : World) (l : SplitListener) (n : Nat)
    (hfirst : l.stopped = false) (hn : 1 ≤ n) :
    (Stop w l).1 = w.baseLnClose l.baseLn.closeCalls
    ∧ (Stop w l).2.baseLn.closeCalls = l.baseLn.closeCalls + 1
    ∧ (stopN w n l).1 = (Stop w l).1 :: List.replicate (n - 1) none
    ∧ (stopN w n l).2 = (Stop w l).2
    ∧ (stopN w n l).2.baseLn.closeCalls = l.baseLn.closeCalls + 1
    ∧ (∀ m, stopN w m (Stop w l).2 = (List.replicate m none, (Stop w l).2)) := by
  have hs : (Stop w l).2.stopped = true := by simp [Stop, hfirst]
  obtain ⟨k, rfl⟩ : ∃ k, n = k + 1 := ⟨n - 1, by omega⟩
  have hk := stopN_stopped w k (Stop w l).2 hs
  refine ⟨by simp [Stop, hfirst], by simp [Stop, hfirst], ?_, ?_, ?_,
    fun m => stopN_stopped w m _ hs⟩
  · show (Stop w l).1 :: (stopN w k (Stop w l).2).1 = _
    rw [hk]; simp
  · show (stopN w k (Stop w l).2).2 = _
    rw [hk]
  · show (stopN w k (Stop w l).2).2.baseLn.closeCalls = _
    rw [hk]; simp [Stop, hfirst]

/-- Three calls of `Stop` on a fresh listener whose base closes with an error. -/
theorem Stop_idempotent_witness :
    New.stopped = false ∧ 1 ≤ 3
    ∧ (stopN failingCloseWorld 3 New).1 = [some fatalErr, none, none]
    ∧ (stopN failingCloseWorld 3 New).2.baseLn.closeCalls = 1 :=
  ⟨rfl, by decide,
    (Stop_idempotent failingCloseWorld New 3 rfl (by decide)).2.2.1,
    (Stop_idempotent failingCloseWorld New 3 rfl (by decide)).2.2.2.2.1⟩

/-! ## One pass through the loop -/

/-- C2: when the flag is not set and `Accept` yields a TLS connection whose
handshake is or becomes complete, the pass does exactly one of three things by
the negotiated protocol: unknown, the connection is sent on the other sink and
not closed; known with the authenticate prefix, it is sent on the node sink and
not closed; known without that prefix, it is closed and neither sink is
touched. -/
theorem iteration_completed_handshake (w : World) (l : SplitListener) (c : TlsConn)
    (hrun : l.stopped = false)
    (hdone : c.handshakeComplete = true ∨ c.handshakeResult = none) :
    (w.ContainsKnownAlpnProto c.negotiatedProtocol = false →
        (iteration w l (.conn (.tls c))).2 = .next
        ∧ (iteration w l (.conn (.tls c))).1.otherBabyListener.incoming
            = { l.otherBabyListener.incoming with sending := some ⟨some (.tls c), none⟩ }
        ∧ (iteration w l (.conn (.tls c))).1.nodeeBabyListener = l.nodeeBabyListener
        ∧ (iteration w l (.conn (.tls c))).1.connCloses = l.connCloses)
    ∧ (w.ContainsKnownAlpnProto c.negotiatedProtocol = true →
        strings.HasPrefix c.negotiatedProtocol w.AuthenticateNodeNextProtoV1Prefix = true →
        (iteration w l (.conn (.tls c))).2 = .next
        ∧ (iteration w l (.conn (.tls c))).1.nodeeBabyListener.incoming
            = { l.nodeeBabyListener.incoming with sending := some ⟨some (.tls c), none⟩ }
        ∧ (iteration w l (.conn (.tls c))).1.otherBabyListener = l.otherBabyListener
        ∧ (iteration w l (.conn (.tls c))).1.connCloses = l.connCloses)
    ∧ (w.ContainsKnownAlpnProto c.negotiatedProtocol = true →
        strings.HasPrefix c.negotiatedProtocol w.AuthenticateNodeNextProtoV1Prefix = false →
        (iteration w l (.conn (.tls c))).2 = .next
        ∧ (iteration w l (.conn (.tls c))).1.connCloses = l.connCloses ++ [.tls c]
        ∧ (iteration w l (.conn (.tls c))).1.nodeeBabyListener = l.nodeeBabyListener
        ∧ (iteration w l (.conn (.tls c))).1.otherBabyListener = l.otherBabyListener) := by
  have hit : iteration w l (.conn (.tls c))
      = dispatch w { l with baseLn := { l.baseLn with acceptCalls := l.baseLn.acceptCalls + 1 } }
          (.tls c) c := by
    rcases hdone with h | h
    · simp [iteration, hrun, Conn.asTls, h]
    · cases hc : c.handshakeComplete <;> simp [iteration, hrun, Conn.asTls, h, hc]
  rw [hit]
  refine ⟨fun hk => ?_, fun hk hp => ?_, fun hk hp => ?_⟩
  · simp [dispatch, hk, SplitListener.sendOther]
  · simp [dispatch, hk, hp, SplitListener.sendNodee]
  · simp [dispatch, hk, hp, SplitListener.closeConn]

/-- The three branches on a fresh listener: a fetch client is closed, an
authenticate client goes to the node sink, an `h2` client (handshake done by
the loop) to the other sink. -/
theorem iteration_completed_handshake_witness :
    (iteration (sampleWorld .panics) New (.conn (.tls fetchConn))).1.connCloses = [.tls fetchConn]
    ∧ (iteration (sampleWorld .panics) New (.conn (.tls authConn))).1.nodeeBabyListener.incoming
        = ⟨some ⟨some (.tls authConn), none⟩, 0⟩
    ∧ (iteration (sampleWorld .panics) New (.conn (.tls h2Conn))).1.otherBabyListener.incoming
        = ⟨some ⟨some (.tls h2Conn), none⟩, 0⟩ :=
  ⟨((iteration_completed_handshake (sampleWorld .panics) New fetchConn rfl (Or.inl rfl)).2.2
      (by decide) (by decide)).2.1,
   ((iteration_completed_handshake (sampleWorld .panics) New authConn rfl (Or.inl rfl)).2.1
      (by decide) (by decide)).2.1,
   ((iteration_completed_handshake (sampleWorld .panics) New h2Conn rfl (Or.inr rfl)).1
      (by decide)).2.1⟩

/-- C4 (fails on the code): a pass that accepts a connection that is not a TLS
session never closes that connection, whatever `Close` on the nil `*tls.Conn`
does; where that call panics, as in crypto/tls, the pass ends in the panic with
nothing sent on the other sink. -/
theorem iteration_plain_conn_never_closed (w : World) (l : SplitListener) (i : Nat) :
    (iteration w l (.conn (.plain i))).1.connCloses = l.connCloses
    ∧ (iteration (sampleWorld .panics) { New with engine := .running } (.conn (.plain i)))
        = ({ New with engine := .running, baseLn := ⟨1, 0⟩ }, .panic)
    ∧ (iteration (sampleWorld .returns) { New with engine := .running }
        (.conn (.plain i))).1.connCloses = [] := by
  refine ⟨?_, ?_, ?_⟩
  · cases hs : l.stopped <;> cases hn : w.nilTlsConnClose <;>
      simp [iteration, hs, hn, Conn.asTls, SplitListener.sendOther]
  · simp [iteration, New, sampleWorld, Conn.asTls]
  · simp [iteration, New, sampleWorld, Conn.asTls, SplitListener.sendOther]

/-- C5: a pass that finds the flag set returns `net.ErrClosed` and leaves the
whole state, the count of `Accept` calls included, as it was. Otherwise the
pass calls `Accept` once and, on an error `e`, changes nothing else: it returns
`e` when `e` is a closed-listener error, returns `e` when `e` is not temporary,
and goes on to the next pass when `e` is temporary and not closed. -/
theorem iteration_accept_errors (w : World) (l : SplitListener) (acc : AcceptResult) (e : Err) :
    (l.stopped = true → iteration w l acc = (l, .ret net.ErrClosed))
    ∧ (l.stopped = false →
        (iteration w l (.err e)).1
          = { l with baseLn := { l.baseLn with acceptCalls := l.baseLn.acceptCalls + 1 } }
        ∧ (e.isClosed = true → (iteration w l (.err e)).2 = .ret e)
        ∧ (e.temporary ≠ some true → (iteration w l (.err e)).2 = .ret e)
        ∧ (e.isClosed = false → e.temporary = some true → (iteration w l (.err e)).2 = .next)) := by
  refine ⟨fun hs => by simp [iteration, hs],
    fun hs => ⟨?_, fun hc => ?_, fun ht => ?_, fun hc ht => ?_⟩⟩
  · cases hc : e.isClosed <;> by_cases ht : e.temporary = some true <;>
      simp [iteration, hs, hc, ht]
  · simp [iteration, hs, hc]
  · cases hc : e.isClosed <;> simp [iteration, hs, hc, ht]
  · simp [iteration, hs, hc, ht]

/-- The four cases on a listener: stopped, a temporary error, a fatal error,
a closed-listener error. -/
theorem iteration_accept_errors_witness :
    iteration (sampleWorld .panics) (Stop (sampleWorld .panics) New).2 (.err tempErr)
        = ((Stop (sampleWorld .panics) New).2, .ret net.ErrClosed)
    ∧ (iteration (sampleWorld .panics) New (.err tempErr)).2 = .next
    ∧ (iteration (sampleWorld .panics) New (.err fatalErr)).2 = .ret fatalErr
    ∧ (iteration (sampleWorld .panics) New (.err net.ErrClosed)).2 = .ret net.ErrClosed :=
  ⟨(iteration_accept_errors (sampleWorld .panics) (Stop (sampleWorld .panics) New).2
      (.err tempErr) tempErr).1 rfl,
   ((iteration_accept_errors (sampleWorld .panics) New (.err tempErr) tempErr).2 rfl).2.2.2 rfl rfl,
   ((iteration_accept_errors (sampleWorld .panics) New (.err fatalErr) fatalErr).2 rfl).2.2.1
      (by decide),
   ((iteration_accept_errors (sampleWorld .panics) New (.err net.ErrClosed) net.ErrClosed).2
      rfl).2.1 rfl⟩

/-! ## Accept on a sink -/

/-- On a closed channel `Accept` returns nil and `net.ErrClosed`, and the sink
stays as it is. -/
theorem Accept_closed (b : babySplitListener) (h : b.incoming.closes ≠ 0) :
    Accept b = some ((none, some net.ErrClosed), b) := by
  simp [Accept, Chan.recv, h]

/-- On a closed channel every one of `n` successive calls returns that pair. -/
theorem acceptN_closed (n : Nat) (b : babySplitListener) (h : b.incoming.closes ≠ 0) :
    acceptN n b = some (List.replicate n (none, some net.ErrClosed)) := by
  induction n with
  | zero => rfl
  | succ k ih => simp [acceptN, Accept_closed b h, ih, List.replicate_succ]

/-- C7: once the channel of a sink is closed, `Accept` returns a nil connection
with `net.ErrClosed`, on the first and on every later call; while the channel
is open and a value is being sent, `Accept` returns exactly the connection and
the error of that value, and takes it off the channel. -/
theorem Accept_closed_or_available (b : babySplitListener) :
    (b.incoming.closes ≠ 0 →
        Accept b = some ((none, some net.ErrClosed), b)
        ∧ ∀ n, acceptN n b = some (List.replicate n (none, some net.ErrClosed)))
    ∧ (∀ v, b.incoming.closes = 0 → b.incoming.sending = some v →
        Accept b = some ((v.conn, v.err), ⟨{ b.incoming with sending := none }⟩)) := by
  refine ⟨fun h => ⟨Accept_closed b h, fun n => acceptN_closed n b h⟩, fun v hc hv => ?_⟩
  simp [Accept, Chan.recv, hc, hv]

/-- A closed sink asked three times, and an open sink with a connection on
offer. -/
theorem Accept_closed_or_available_witness :
    acceptN 3 ⟨⟨none, 1⟩⟩ = some (List.replicate 3 (none, some net.ErrClosed))
    ∧ Accept ⟨⟨some ⟨some (.tls h2Conn), none⟩, 0⟩⟩ = some ((some (.tls h2Conn), none), ⟨⟨none, 0⟩⟩) :=
  ⟨((Accept_closed_or_available ⟨⟨none, 1⟩⟩).1 (by decide)).2 3,
   (Accept_closed_or_available ⟨⟨some ⟨some (.tls h2Conn), none⟩, 0⟩⟩).2 _ rfl rfl⟩

/-- What a returning `Accept` does to the sink: the close count stays, the
value on offer stays or is taken. -/
theorem Accept_shape (b b1 : babySplitListener) (r : Option Conn × Option Err)
    (h : Accept b = some (r, b1)) :
    b1.incoming.closes = b.incoming.closes
    ∧ (b1.incoming.sending = b.incoming.sending ∨ b1.incoming.sending = none) := by
  unfold Accept Chan.recv at h
  by_cases hc : b.incoming.closes = 0
  · cases hs : b.incoming.sending with
    | none => simp [hc, hs] at h
    | some v =>
      simp [hc, hs] at h
      obtain ⟨_, rfl⟩ := h
      simp [hc]
  · simp [hc] at h
    obtain ⟨_, rfl⟩ := h
    simp


/-- What a pass can do to the state: the engine, the flag and the close counts
stay; either both sinks stay as they are, or the pass goes on after sending one
connection on the node sink, or after sending one well-formed envelope on the
other sink. -/
theorem iteration_shape (w : World) (l : SplitListener) (acc : AcceptResult) :
    (iteration w l acc).1.engine = l.engine
    ∧ (iteration w l acc).1.stopped = l.stopped
    ∧ (iteration w l acc).1.nodeeBabyListener.incoming.closes = l.nodeeBabyListener.incoming.closes
    ∧ (iteration w l acc).1.otherBabyListener.incoming.closes = l.otherBabyListener.incoming.closes
    ∧ (((iteration w l acc).1.nodeeBabyListener = l.nodeeBabyListener
          ∧ (iteration w l acc).1.otherBabyListener = l.otherBabyListener)
      ∨ ((iteration w l acc).2 = .next
          ∧ (iteration w l acc).1.otherBabyListener = l.otherBabyListener
          ∧ ∃ v, v.conn.isSome = true ∧ v.err = none
              ∧ (iteration w l acc).1.nodeeBabyListener.incoming.sending = some v)
      ∨ ((iteration w l acc).2 = .next
          ∧ (iteration w l acc).1.nodeeBabyListener = l.nodeeBabyListener
          ∧ ∃ v, v.oneSet = true
              ∧ (iteration w l acc).1.otherBabyListener.incoming.sending = some v)) := by
  unfold iteration dispatch
  cases hs : l.stopped
  · cases acc with
    | err e =>
      cases hc : e.isClosed <;> by_cases ht : e.temporary = some true <;> simp [hc, ht, hs]
    | conn c =>
      cases c with
      | plain i =>
        cases hn : w.nilTlsConnClose <;>
          simp [Conn.asTls, hn, hs, SplitListener.sendOther, splitConn.oneSet]
      | tls t =>
        cases hh : t.handshakeComplete <;> cases hr : t.handshakeResult <;>
        cases hk : w.ContainsKnownAlpnProto t.negotiatedProtocol <;>
        cases hp : strings.HasPrefix t.negotiatedProtocol w.AuthenticateNodeNextProtoV1Prefix <;>
          simp [Conn.asTls, hh, hr, hk, hp, hs, SplitListener.sendOther, SplitListener.sendNodee,
            SplitListener.closeConn, splitConn.oneSet]
  · simp [hs]


/-! ## Invariants of the life of a listener -/

/-- A fresh listener is consistent. -/
theorem New_consistent : Consistent New := by
  simp [Consistent, New, SplitListener.noSend]

/-- On two open channels the deferred function closes both, once each. -/
theorem closeIncoming_open (l : SplitListener)
    (hn : l.nodeeBabyListener.incoming.closes = 0) (ho : l.otherBabyListener.incoming.closes = 0) :
    closeIncoming l
      = ({ l with nodeeBabyListener := ⟨{ l.nodeeBabyListener.incoming with closes := 1 }⟩
                  otherBabyListener := ⟨{ l.otherBabyListener.incoming with closes := 1 }⟩ },
          true) := by
  simp [closeIncoming, Chan.close, hn, ho]

/-- A pass of the running, unblocked engine keeps the state consistent. -/
theorem iterate_consistent (w : World) (l : SplitListener) (acc : AcceptResult)
    (hc : Consistent l) (hrun : l.engine = .running) (hidle : l.noSend = true) :
    Consistent (finish (iteration w l acc)) := by
  obtain ⟨_, hopen, _, _, _⟩ := hc
  obtain ⟨hn0, ho0⟩ := hopen (Or.inr hrun)
  obtain ⟨he, _, hcn, hco, hsh⟩ := iteration_shape w l acc
  simp only [SplitListener.noSend, Bool.and_eq_true, Option.isNone_iff_eq_none] at hidle
  obtain ⟨hsn, hso⟩ := hidle
  rw [hn0] at hcn
  rw [ho0] at hco
  rw [hrun] at he
  cases hf : (iteration w l acc).2 with
  | next =>
    have hfin : finish (iteration w l acc) = (iteration w l acc).1 := by simp [finish, hf]
    rw [hfin]
    refine ⟨by simp [he], fun _ => ⟨hcn, hco⟩, by simp [he], ?_, ?_⟩
    · intro v hv
      rcases hsh with ⟨h1, _⟩ | ⟨_, _, v1, hv1, hv2, hv3⟩ | ⟨_, h1, _⟩
      · rw [h1, hsn] at hv; cases hv
      · rw [hv3] at hv; cases hv; exact ⟨hv1, hv2⟩
      · rw [h1, hsn] at hv; cases hv
    · intro v hv
      rcases hsh with ⟨_, h1⟩ | ⟨_, h1, _⟩ | ⟨_, _, v1, hv1, hv3⟩
      · rw [h1, hso] at hv; cases hv
      · rw [h1, hso] at hv; cases hv
      · rw [hv3] at hv; cases hv; exact hv1
  | ret e =>
    have hsame : (iteration w l acc).1.nodeeBabyListener = l.nodeeBabyListener
        ∧ (iteration w l acc).1.otherBabyListener = l.otherBabyListener := by
      rcases hsh with h | ⟨h, _⟩ | ⟨h, _⟩
      · exact h
      · rw [hf] at h; cases h
      · rw [hf] at h; cases h
    have hfin : finish (iteration w l acc)
        = { (iteration w l acc).1 with
              nodeeBabyListener := ⟨{ (iteration w l acc).1.nodeeBabyListener.incoming with closes := 1 }⟩
              otherBabyListener := ⟨{ (iteration w l acc).1.otherBabyListener.incoming with closes := 1 }⟩
              engine := .returned e } := by
      simp [finish, hf, closeIncoming_open _ hcn hco]
    rw [hfin]
    simp [Consistent, SplitListener.noSend, hsame.1, hsame.2, hsn, hso]
  | panic =>
    have hsame : (iteration w l acc).1.nodeeBabyListener = l.nodeeBabyListener
        ∧ (iteration w l acc).1.otherBabyListener = l.otherBabyListener := by
      rcases hsh with h | ⟨h, _⟩ | ⟨h, _⟩
      · exact h
      · rw [hf] at h; cases h
      · rw [hf] at h; cases h
    have hfin : finish (iteration w l acc)
        = { (iteration w l acc).1 with
              nodeeBabyListener := ⟨{ (iteration w l acc).1.nodeeBabyListener.incoming with closes := 1 }⟩
              otherBabyListener := ⟨{ (iteration w l acc).1.otherBabyListener.incoming with closes := 1 }⟩
              engine := .panicked } := by
      simp [finish, hf, closeIncoming_open _ hcn hco]
    rw [hfin]
    simp [Consistent, SplitListener.noSend, hsame.1, hsame.2, hsn, hso]

/-- Every action keeps the state consistent. -/
theorem step_consistent (w : World) (l l1 : SplitListener) (a : Action)
    (hc : Consistent l) (h : step w l a = some l1) : Consistent l1 := by
  cases a with
  | start =>
    simp only [step] at h
    split_ifs at h with hi
    cases h
    obtain ⟨_, hopen, _, hn, ho⟩ := hc
    exact ⟨by simp, fun _ => hopen (Or.inl hi), by simp, hn, ho⟩
  | stop =>
    simp only [step, Option.some.injEq] at h
    subst h
    unfold Stop
    split_ifs
    · exact hc
    · exact hc
  | iterate acc =>
    simp only [step] at h
    split_ifs at h with hg
    cases h
    exact iterate_consistent w l acc hc hg.1 hg.2
  | acceptNodee =>
    simp only [step] at h
    cases hA : Accept l.nodeeBabyListener with
    | none => simp [hA] at h
    | some p =>
      obtain ⟨r, b⟩ := p
      simp only [hA, Option.some.injEq] at h
      subst h
      obtain ⟨hcl, hsend⟩ := Accept_shape _ _ _ hA
      obtain ⟨h1, h2, h3, h4, h5⟩ := hc
      refine ⟨?_, ?_, ?_, ?_, h5⟩
      · intro he
        have := h1 he
        simp only [SplitListener.noSend, Bool.and_eq_true, Option.isNone_iff_eq_none] at this ⊢
        rcases hsend with hs | hs
        · exact ⟨by rw [hs]; exact this.1, this.2⟩
        · exact ⟨hs, this.2⟩
      · intro he
        exact ⟨by rw [hcl]; exact (h2 he).1, (h2 he).2⟩
      · intro e he
        have := h3 e he
        simp only [SplitListener.noSend, Bool.and_eq_true, Option.isNone_iff_eq_none] at this ⊢
        refine ⟨by rw [hcl]; exact this.1, this.2.1, ?_, this.2.2.2⟩
        rcases hsend with hs | hs
        · rw [hs]; exact this.2.2.1
        · exact hs
      · intro v hv
        rcases hsend with hs | hs
        · exact h4 v (by rw [← hs]; exact hv)
        · simp only at hv; rw [hs] at hv; cases hv
  | acceptOther =>
    simp only [step] at h
    cases hA : Accept l.otherBabyListener with
    | none => simp [hA] at h
    | some p =>
      obtain ⟨r, b⟩ := p
      simp only [hA, Option.some.injEq] at h
      subst h
      obtain ⟨hcl, hsend⟩ := Accept_shape _ _ _ hA
      obtain ⟨h1, h2, h3, h4, h5⟩ := hc
      refine ⟨?_, ?_, ?_, h4, ?_⟩
      · intro he
        have := h1 he
        simp only [SplitListener.noSend, Bool.and_eq_true, Option.isNone_iff_eq_none] at this ⊢
        rcases hsend with hs | hs
        · exact ⟨this.1, by rw [hs]; exact this.2⟩
        · exact ⟨this.1, hs⟩
      · intro he
        exact ⟨(h2 he).1, by rw [hcl]; exact (h2 he).2⟩
      · intro e he
        have := h3 e he
        simp only [SplitListener.noSend, Bool.and_eq_true, Option.isNone_iff_eq_none] at this ⊢
        refine ⟨this.1, by rw [hcl]; exact this.2.1, this.2.2.1, ?_⟩
        rcases hsend with hs | hs
        · rw [hs]; exact this.2.2.2
        · exact hs
      · intro v hv
        rcases hsend with hs | hs
        · exact h5 v (by rw [← hs]; exact hv)
        · simp only at hv; rw [hs] at hv; cases hv
  | closeSink =>
    simp only [step, Option.some.injEq] at h
    subst h
    exact hc

/-- Every sequence of actions keeps the state consistent. -/
theorem exec_consistent (w : World) (tr : List Action) :
    ∀ l l1 : SplitListener, Consistent l → exec w l tr = some l1 → Consistent l1 := by
  induction tr with
  | nil =>
    intro l l1 hc h
    simp only [exec, Option.some.injEq] at h
    subst h
    exact hc
  | cons a rest ih =>
    intro l l1 hc h
    simp only [exec] at h
    cases hs : step w l a with
    | none => simp [hs] at h
    | some l2 =>
      simp only [hs] at h
      exact ih l2 l1 (step_consistent w l l2 a hc hs) h


/-! ## Routing in a drained run -/

/-- One accepted connection in a drained run: the pass goes on, and what the
consumers receive for it is what the classification of the spec says. -/
theorem round_routes (w : World) (l : SplitListener) (c : Conn)
    (hok : w.nilTlsConnClose = .returns ∨ c.asTls ≠ none)
    (hrun : l.engine = .running) (hstop : l.stopped = false) (hidle : l.noSend = true)
    (hn0 : l.nodeeBabyListener.incoming.closes = 0)
    (ho0 : l.otherBabyListener.incoming.closes = 0) :
    ∃ l1, step w l (.iterate (.conn c)) = some l1
      ∧ l1.engine = .running ∧ l1.stopped = false
      ∧ (drain l1.nodeeBabyListener).1.incoming = ⟨none, 0⟩
      ∧ (drain l1.otherBabyListener).1.incoming = ⟨none, 0⟩
      ∧ (drain l1.nodeeBabyListener).2 = expected w .node [c]
      ∧ (drain l1.otherBabyListener).2 = expected w .other [c] := by
  simp only [SplitListener.noSend, Bool.and_eq_true, Option.isNone_iff_eq_none] at hidle
  obtain ⟨hsn, hso⟩ := hidle
  obtain ⟨bl, ⟨⟨ns, nc⟩⟩, ⟨⟨os, oc⟩⟩, st, cc, en⟩ := l
  simp only at hrun hstop hsn hso hn0 ho0
  subst hrun hstop hsn hso hn0 ho0
  refine ⟨finish (iteration w ⟨bl, ⟨⟨none, 0⟩⟩, ⟨⟨none, 0⟩⟩, false, cc, .running⟩ (.conn c)),
    by simp [step, SplitListener.noSend], ?_⟩
  cases c with
  | plain i =>
    have hr : w.nilTlsConnClose = .returns := by
      rcases hok with h | h
      · exact h
      · exact absurd rfl h
    simp [iteration, finish, Conn.asTls, hr, SplitListener.sendOther, drain, Accept, Chan.recv,
      expected, classify]
  | tls t =>
    cases hh : t.handshakeComplete <;> cases hres : t.handshakeResult <;>
    cases hk : w.ContainsKnownAlpnProto t.negotiatedProtocol <;>
    cases hp : strings.HasPrefix t.negotiatedProtocol w.AuthenticateNodeNextProtoV1Prefix <;>
      simp [iteration, dispatch, finish, Conn.asTls, hh, hres, hk, hp, SplitListener.sendOther,
        SplitListener.sendNodee, SplitListener.closeConn, drain, Accept, Chan.recv, expected,
        classify]

/-- The expected deliveries of a sequence, head first. -/
theorem expected_cons (w : World) (k : Sink) (c : Conn) (cs : List Conn) :
    expected w k (c :: cs) = expected w k [c] ++ expected w k cs := by
  simp only [expected, List.filterMap_cons, List.filterMap_nil]
  split <;> simp

/-- Routing of a whole sequence of accepted connections from any running,
unblocked, unstopped state with open channels. -/
theorem runLoop_routes (w : World) (cs : List Conn) :
    ∀ l : SplitListener,
      (w.nilTlsConnClose = .returns ∨ ∀ c ∈ cs, c.asTls ≠ none) →
      l.engine = .running → l.stopped = false → l.noSend = true →
      l.nodeeBabyListener.incoming.closes = 0 → l.otherBabyListener.incoming.closes = 0 →
      (runLoop w l (cs.map .conn)).nodee = expected w .node cs
      ∧ (runLoop w l (cs.map .conn)).other = expected w .other cs := by
  induction cs with
  | nil => intro l _ _ _ _ _ _; exact ⟨rfl, rfl⟩
  | cons c rest ih =>
    intro l hok hrun hstop hidle hn0 ho0
    have hok1 : w.nilTlsConnClose = .returns ∨ c.asTls ≠ none := by
      rcases hok with h | h
      · exact Or.inl h
      · exact Or.inr (h c (List.mem_cons_self _ _))
    have hok2 : w.nilTlsConnClose = .returns ∨ ∀ x ∈ rest, x.asTls ≠ none := by
      rcases hok with h | h
      · exact Or.inl h
      · exact Or.inr (fun x hx => h x (List.mem_cons_of_mem _ hx))
    obtain ⟨l1, hstep, he, hs, hdn, hdo, hrn, hro⟩ :=
      round_routes w l c hok1 hrun hstop hidle hn0 ho0
    have hrec := ih
      { l1 with nodeeBabyListener := (drain l1.nodeeBabyListener).1
                otherBabyListener := (drain l1.otherBabyListener).1 }
      hok2 he hs (by simp [SplitListener.noSend, hdn, hdo]) (by simp [hdn]) (by simp [hdo])
    rw [expected_cons w .node, expected_cons w .other, ← hrn, ← hro, ← hrec.1, ← hrec.2]
    simp only [List.map_cons, runLoop, hstep]
    trivial

/-- Routing holds for every accepted sequence in which the nil `Close` is never
reached or returns: each sink receives, in order and once, exactly the items
that classify to it. -/
theorem Start_routes (w : World) (cs : List Conn)
    (hok : w.nilTlsConnClose = .returns ∨ ∀ c ∈ cs, c.asTls ≠ none) :
    (Start w (cs.map .conn)).nodee = expected w .node cs
    ∧ (Start w (cs.map .conn)).other = expected w .other cs :=
  runLoop_routes w cs _ hok rfl rfl rfl rfl rfl

/-- C3 (fails on the code): in a run that accepts a connection that is not a
TLS session, the spec expects one error envelope on the other sink; where
`Close` on the nil `*tls.Conn` panics, the run delivers nothing for it on
either sink, ends in the panic, and a connection queued behind it is never
accepted. -/
theorem Start_plain_conn_not_delivered :
    expected (sampleWorld .panics) .other [.plain 9]
        = [(none, some (temperror.New (errors.New "expected tls connection but it is not")))]
    ∧ (Start (sampleWorld .panics) [.conn (.plain 9)]).other = []
    ∧ (Start (sampleWorld .panics) [.conn (.plain 9)]).nodee = []
    ∧ (Start (sampleWorld .panics) [.conn (.plain 9)]).state.engine = .panicked
    ∧ (Start (sampleWorld .panics) [.conn (.plain 9), .conn (.tls h2Conn)]).other = [] := by
  decide


/-! ## Closing of the two channels -/

/-- C6: in every state a listener can reach, neither channel is closed while
`Start` has not been entered or its loop is running, and both channels have
been closed exactly once when `Start` has returned; and from every running,
unblocked state each terminal path of a pass (flag observed, closed-listener
accept error, accept error that is not temporary) does make `Start` return
that error with both channels closed once. -/
theorem incoming_closed_once_at_exit (w : World) (tr : List Action) (l : SplitListener)
    (h : exec w New tr = some l) :
    ((l.engine = .idle ∨ l.engine = .running) →
        l.nodeeBabyListener.incoming.closes = 0 ∧ l.otherBabyListener.incoming.closes = 0)
    ∧ (∀ e, l.engine = .returned e →
        l.nodeeBabyListener.incoming.closes = 1 ∧ l.otherBabyListener.incoming.closes = 1)
    ∧ (l.engine = .running → l.noSend = true → ∀ (acc : AcceptResult) (e : Err),
        ((l.stopped = true ∧ e = net.ErrClosed)
          ∨ (l.stopped = false ∧ acc = .err e ∧ (e.isClosed = true ∨ e.temporary ≠ some true))) →
        ∃ l1, step w l (.iterate acc) = some l1 ∧ l1.engine = .returned e
          ∧ l1.nodeeBabyListener.incoming.closes = 1
          ∧ l1.otherBabyListener.incoming.closes = 1) := by
  have hc := exec_consistent w tr New l New_consistent h
  refine ⟨hc.2.1, fun e he => ⟨(hc.2.2.1 e he).1, (hc.2.2.1 e he).2.1⟩, ?_⟩
  intro hrun hidle acc e hpath
  have hstep : step w l (.iterate acc) = some (finish (iteration w l acc)) := by
    simp [step, hrun, hidle]
  have hc1 := step_consistent w l _ _ hc hstep
  obtain ⟨hn0, ho0⟩ := hc.2.1 (Or.inr hrun)
  obtain ⟨_, _, hcn, hco, _⟩ := iteration_shape w l acc
  rw [hn0] at hcn
  rw [ho0] at hco
  have hflow : (iteration w l acc).2 = .ret e := by
    rcases hpath with ⟨hs, rfl⟩ | ⟨hs, rfl, hcl | ht⟩
    · simp [iteration, hs]
    · simp [iteration, hs, hcl]
    · cases hcl : e.isClosed <;> simp [iteration, hs, hcl, ht]
  have heng : (finish (iteration w l acc)).engine = .returned e := by
    simp [finish, hflow, closeIncoming_open _ hcn hco]
  exact ⟨_, hstep, heng, (hc1.2.2.1 e heng).1, (hc1.2.2.1 e heng).2.1⟩

/-- A run that delivers one connection and then meets a fatal accept error. -/
theorem incoming_closed_once_at_exit_witness :
    exec (sampleWorld .panics) New
        [.start, .iterate (.conn (.tls h2Conn)), .acceptOther, .iterate (.err fatalErr)]
      = some exitedState
    ∧ exitedState.nodeeBabyListener.incoming.closes = 1
    ∧ exitedState.otherBabyListener.incoming.closes = 1 :=
  have h : exec (sampleWorld .panics) New
      [.start, .iterate (.conn (.tls h2Conn)), .acceptOther, .iterate (.err fatalErr)]
      = some exitedState := by decide
  ⟨h, (incoming_closed_once_at_exit _ _ _ h).2.1 fatalErr rfl⟩

/-! ## Accept after Stop -/

/-- C8 as stated fails: right after `Stop` on a listener whose `Start` has not
run, `Accept` on either sink blocks; and when `Stop` returns while the engine
is sending a connection, the next `Accept` on that sink returns the
connection. -/
theorem Accept_after_Stop_counterexample :
    exec (sampleWorld .panics) New [.stop] = some { New with stopped := true, baseLn := ⟨0, 1⟩ }
    ∧ Accept ({ New with stopped := true, baseLn := ⟨0, 1⟩ } : SplitListener).nodeeBabyListener = none
    ∧ Accept ({ New with stopped := true, baseLn := ⟨0, 1⟩ } : SplitListener).otherBabyListener = none
    ∧ (exec (sampleWorld .panics) New [.start, .iterate (.conn (.tls h2Conn)), .stop]).map
        (fun l => Accept l.otherBabyListener)
        = some (some ((some (.tls h2Conn), none), ⟨⟨none, 0⟩⟩)) := by
  decide

/-- Once `Start` has returned, the engine stays returned whatever happens. -/
theorem exec_returned (w : World) (tr : List Action) :
    ∀ (l l1 : SplitListener) (e : Err),
      l.engine = .returned e → exec w l tr = some l1 → l1.engine = .returned e := by
  induction tr with
  | nil =>
    intro l l1 e he h
    simp only [exec, Option.some.injEq] at h
    subst h
    exact he
  | cons a rest ih =>
    intro l l1 e he h
    simp only [exec] at h
    cases hs : step w l a with
    | none => simp [hs] at h
    | some l2 =>
      simp only [hs] at h
      refine ih l2 l1 e ?_ h
      cases a with
      | start => simp [step, he] at hs
      | stop =>
        simp only [step, Option.some.injEq] at hs
        subst hs
        unfold Stop
        split_ifs
        · exact he
        · exact he
      | iterate acc => simp [step, he] at hs
      | acceptNodee =>
        simp only [step] at hs
        cases hA : Accept l.nodeeBabyListener with
        | none => simp [hA] at hs
        | some p =>
          simp only [hA, Option.some.injEq] at hs
          subst hs
          exact he
      | acceptOther =>
        simp only [step] at hs
        cases hA : Accept l.otherBabyListener with
        | none => simp [hA] at hs
        | some p =>
          simp only [hA, Option.some.injEq] at hs
          subst hs
          exact he
      | closeSink =>
        simp only [step, Option.some.injEq] at hs
        subst hs
        exact he

/-- C8 as amended: in every state reached after a call of `Stop` in which
`Start` has returned, `Accept` on the node sink and on the other sink returns a
nil connection and `net.ErrClosed`, and so does every later call, whatever
happens in between. -/
theorem Accept_closed_after_Stop_and_exit (w : World) (tr1 tr2 : List Action)
    (l : SplitListener) (e : Err)
    (h : exec w New (tr1 ++ .stop :: tr2) = some l) (hret : l.engine = .returned e) :
    ∀ (tr3 : List Action) (l1 : SplitListener), exec w l tr3 = some l1 →
      Accept l1.nodeeBabyListener = some ((none, some net.ErrClosed), l1.nodeeBabyListener)
      ∧ Accept l1.otherBabyListener = some ((none, some net.ErrClosed), l1.otherBabyListener)
      ∧ (∀ n, acceptN n l1.nodeeBabyListener = some (List.replicate n (none, some net.ErrClosed)))
      ∧ (∀ n, acceptN n l1.otherBabyListener
            = some (List.replicate n (none, some net.ErrClosed))) := by
  intro tr3 l1 h3
  have hc := exec_consistent w _ New l New_consistent h
  have hc1 := exec_consistent w tr3 l l1 hc h3
  obtain ⟨hn, ho, _⟩ := hc1.2.2.1 e (exec_returned w tr3 l l1 e hret h3)
  have hn1 : l1.nodeeBabyListener.incoming.closes ≠ 0 := by omega
  have ho1 : l1.otherBabyListener.incoming.closes ≠ 0 := by omega
  exact ⟨Accept_closed _ hn1, Accept_closed _ ho1, fun n => acceptN_closed n _ hn1,
    fun n => acceptN_closed n _ ho1⟩

/-- `Stop` before the next pass of the loop, which observes the flag:
afterwards both sinks report closed. -/
theorem Accept_closed_after_Stop_and_exit_witness :
    exec (sampleWorld .panics) New ([.start] ++ .stop :: [.iterate (.err net.ErrClosed)])
      = some stoppedState
    ∧ stoppedState.engine = .returned net.ErrClosed
    ∧ Accept stoppedState.nodeeBabyListener
        = some ((none, some net.ErrClosed), stoppedState.nodeeBabyListener)
    ∧ Accept stoppedState.otherBabyListener
        = some ((none, some net.ErrClosed), stoppedState.otherBabyListener) :=
  have h : exec (sampleWorld .panics) New ([.start] ++ .stop :: [.iterate (.err net.ErrClosed)])
      = some stoppedState := by decide
  have k := Accept_closed_after_Stop_and_exit (sampleWorld .panics) [.start]
    [.iterate (.err net.ErrClosed)] stoppedState net.ErrClosed h rfl [] stoppedState rfl
  ⟨h, rfl, k.1, k.2.1⟩

/-! ## Envelopes -/

/-- C9: in every state a listener can reach, a value being sent on the node
sink is a connection with a nil error, and a value being sent on the other
sink has exactly one of its two fields set; so every envelope `Start` puts on
a sink has one field set, and error envelopes occur on the other sink only. -/
theorem enqueued_envelopes_wellformed (w : World) (tr : List Action) (l : SplitListener)
    (h : exec w New tr = some l) :
    (∀ v, l.nodeeBabyListener.incoming.sending = some v → v.conn.isSome = true ∧ v.err = none)
    ∧ (∀ v, l.otherBabyListener.incoming.sending = some v →
        (v.conn.isSome = true ∧ v.err = none) ∨ (v.conn = none ∧ v.err.isSome = true)) := by
  have hc := exec_consistent w tr New l New_consistent h
  refine ⟨hc.2.2.2.1, fun v hv => ?_⟩
  have := hc.2.2.2.2 v hv
  simp only [splitConn.oneSet, Bool.or_eq_true, Bool.and_eq_true, Option.isNone_iff_eq_none] at this
  exact this

/-- A failed handshake: the error envelope on the other sink has a nil
connection and a non-nil error. -/
theorem enqueued_envelopes_wellformed_witness :
    exec (sampleWorld .panics) New [.start, .iterate (.conn (.tls badConn))]
      = some failedHandshakeState
    ∧ ((∀ v, failedHandshakeState.nodeeBabyListener.incoming.sending = some v →
          v.conn.isSome = true ∧ v.err = none)
      ∧ (∀ v, failedHandshakeState.otherBabyListener.incoming.sending = some v →
          (v.conn.isSome = true ∧ v.err = none) ∨ (v.conn = none ∧ v.err.isSome = true))) :=
  have h : exec (sampleWorld .panics) New [.start, .iterate (.conn (.tls badConn))]
      = some failedHandshakeState := by decide
  ⟨h, enqueued_envelopes_wellformed (sampleWorld .panics) _ failedHandshakeState h⟩

end Nodeenrollment
